import Mathlib

/-!
Verification development for the core of the spot-crypto trading engine
(trading-bot: bot.py, strategy.py, risk_manager.py, backtest.py, models.py).

Prices, cash amounts and fees are modelled as rationals (the idealisation of
the IEEE-754 doubles used by the source, exact arithmetic instead of rounded).
Where the source relies on IEEE special values (NaN propagation and division
by zero producing infinities, in the pandas indicator pipeline) we use an
explicit extended-value type `FVal` with IEEE-style operations.
-/

namespace TradingBot

/-- OHLCV candle (models.py, `Candle`).  The python field `open` is a Lean
keyword, hence `open_`. -/
structure Candle where
  timestamp_ms : Int
  open_ : ℚ
  high : ℚ
  low : ℚ
  close : ℚ
  volume : ℚ
deriving Repr, DecidableEq

/-- Open long spot position (models.py, `Position`). -/
structure Position where
  symbol : String
  amount : ℚ
  entry_price : ℚ
  entry_timestamp_ms : Int
  stop_loss_price : ℚ
  take_profit_price : ℚ
  entry_fee : ℚ := 0
deriving Repr, DecidableEq

/-- Strategy output action (models.py, `SignalAction`). -/
inductive SignalAction
  | buy
  | sell
  | hold
deriving Repr, DecidableEq

/-- Strategy output (models.py, `Signal`). -/
structure Signal where
  action : SignalAction
  reason : String
deriving Repr, DecidableEq

/-! ## Paper execution backend (backtest.py `_paper_buy` / `_paper_sell`,
identical arithmetic in bot.py `TradingBot._paper_buy` / `_paper_sell`). -/

/-- Result of a successful paper buy: new cash, base amount bought, quote fee.
backtest.py returns the triple; bot.py mutates `_paper_cash_usdt` and returns
a `_Fill` with the same numbers. -/
structure BuyFill where
  new_cash : ℚ
  base_amount : ℚ
  fee_quote : ℚ
deriving Repr, DecidableEq

/-- `_paper_buy(cash_usdt, quote_to_spend, price, fee_pct)` from
backtest.py lines 216-227 (bot.py lines 268-280 is the same computation).
The spend is first clamped to available cash; if the clamped spend is ≤ 0 the
python raises `ValueError` (modelled as `none`); otherwise the spend is further
clamped to `cash / (1 + fee_pct)` and the fill returned. -/
def paper_buy (cash_usdt quote_to_spend price fee_pct : ℚ) : Option BuyFill :=
  let q1 := min quote_to_spend cash_usdt
  if q1 ≤ 0 then none
  else
    let q2 := min q1 (cash_usdt / (1 + fee_pct))
    some ⟨cash_usdt - q2 - q2 * fee_pct, q2 / price, q2 * fee_pct⟩

/-- `_paper_sell(cash_usdt, base_amount, price, fee_pct)` from backtest.py
lines 230-236 (bot.py lines 282-288): returns (new cash, quote fee). -/
def paper_sell (cash_usdt base_amount price fee_pct : ℚ) : ℚ × ℚ :=
  let gross := base_amount * price
  let fee_quote := gross * fee_pct
  (cash_usdt + (gross - fee_quote), fee_quote)

/-- A fill request as issued by the trading loop / backtester to the paper
backend: either a buy of a target quote spend at a price, or a sell of a base
amount at a price. -/
inductive FillOp
  | buy (quote_to_spend price : ℚ)
  | sell (base_amount price : ℚ)
deriving Repr, DecidableEq

/-- Validity of a fill request as quantified by the cash invariant claim:
prices are positive and sell amounts nonnegative. -/
def FillOp.valid : FillOp → Prop
  | .buy _ price => 0 < price
  | .sell base_amount price => 0 < price ∧ 0 ≤ base_amount

/-- Apply one fill to the paper cash balance; `none` models the
`ValueError` raised by `_paper_buy`. -/
def applyFill (fee_pct cash : ℚ) : FillOp → Option ℚ
  | .buy q p => (paper_buy cash q p fee_pct).map BuyFill.new_cash
  | .sell a p => some (paper_sell cash a p fee_pct).1

/-- Thread a sequence of paper fills through the cash balance. -/
def applyFills (fee_pct cash : ℚ) : List FillOp → Option ℚ
  | [] => some cash
  | op :: ops =>
    match applyFill fee_pct cash op with
    | none => none
    | some c => applyFills fee_pct c ops

/-! ## Risk manager (risk_manager.py, `RiskManager`). -/

/-- Mutable state of `RiskManager`: stored UTC date (`_day`, a calendar date
modelled as an integer day number), `_day_start_equity`, `_halted`. -/
structure RiskState where
  day : Option Int
  day_start_equity : Option ℚ
  halted : Bool
deriving Repr, DecidableEq

/-- Fresh `RiskManager` state (constructor of risk_manager.py). -/
def RiskState.init : RiskState := ⟨none, none, false⟩

/-- `RiskManager.update_daily_equity(now, equity)` (risk_manager.py lines
28-50).  `limit` is `cfg.daily_drawdown_limit_pct`; `day` is `now.date()`. -/
def update_daily_equity (limit : ℚ) (s : RiskState) (day : Int) (equity : ℚ) :
    RiskState :=
  if s.day ≠ some day then
    { day := some day, day_start_equity := some equity, halted := false }
  else
    match s.day_start_equity with
    | none => { s with day_start_equity := some equity }
    | some start =>
      if limit ≤ 0 then s
      else if equity ≤ start * (1 - limit) then { s with halted := true }
      else s

/-- Fold a sequence of `(date, equity)` calls through
`update_daily_equity`, as the trading loop does once per tick. -/
def run_daily_updates (limit : ℚ) (s : RiskState) (calls : List (Int × ℚ)) :
    RiskState :=
  calls.foldl (fun st c => update_daily_equity limit st c.1 c.2) s

/-- `RiskManager.max_quote_allocation(equity, free_quote)` (risk_manager.py
lines 52-58). -/
def max_quote_allocation (max_position_pct equity : ℚ)
    (free_quote : Option ℚ) : ℚ :=
  let allocation := equity * max_position_pct
  match free_quote with
  | none => max 0 allocation
  | some free => max 0 (min allocation free)

/-- `RiskManager.build_position` (risk_manager.py lines 60-75). -/
def build_position (stop_loss_pct take_profit_pct : ℚ) (symbol : String)
    (amount entry_price : ℚ) (entry_timestamp_ms : Int) (entry_fee : ℚ) :
    Position :=
  { symbol := symbol
    amount := amount
    entry_price := entry_price
    entry_timestamp_ms := entry_timestamp_ms
    stop_loss_price := entry_price * (1 - stop_loss_pct)
    take_profit_price := entry_price * (1 + take_profit_pct)
    entry_fee := entry_fee }

/-- `RiskManager.stop_take_reason(position, last_price)` (risk_manager.py
lines 77-84): stop-loss checked first, then take-profit. -/
def stop_take_reason (position : Position) (last_price : ℚ) : Option String :=
  if last_price ≤ position.stop_loss_price then some "stop-loss"
  else if last_price ≥ position.take_profit_price then some "take-profit"
  else none

/-! ## Per-symbol tick decision (bot.py `TradingBot._process_symbol` and the
per-symbol branch of the backtest event loop, backtest.py lines 429-483).

Both call sites compute the strategy signal with
`generate_signal(candles, position)`; the decision functions below take that
signal as an argument, so that claims quantify over every signal the strategy
can produce.  The sizing guard of `_open_position` (`quote_alloc <= 0` means
no order is placed) is inlined, since `_process_symbol` always delegates buys
to `_open_position`. -/

/-- Outcome of processing one symbol in one tick: close the open position
(with the recorded exit reason), open a new position, or do nothing. -/
inductive TickAction
  | close_position (reason : String)
  | open_position (reason : String)
  | no_action
deriving Repr, DecidableEq

/-- Decision logic of `TradingBot._process_symbol` (bot.py lines 152-176):
with a position, stop/take is evaluated first on `last_price` (the last
candle close) and on a trigger the position is closed and the signal skipped;
otherwise the signal is routed — buys are dropped when a position exists or
the risk governor is halted or the allocation is ≤ 0, sells are dropped
without a position. -/
def process_symbol (position : Option Position) (halted : Bool)
    (sig : Signal) (quote_alloc last_price : ℚ) : TickAction :=
  match position with
  | some pos =>
    match stop_take_reason pos last_price with
    | some r => .close_position r
    | none =>
      match sig.action with
      | .buy => .no_action
      | .sell => .close_position sig.reason
      | .hold => .no_action
  | none =>
    match sig.action with
    | .buy =>
      if halted then .no_action
      else if quote_alloc ≤ 0 then .no_action
      else .open_position sig.reason
    | .sell => .no_action
    | .hold => .no_action

/-- Decision logic of the backtester's per-symbol step (backtest.py lines
429-483): identical ordering — stop/take first (closing and skipping the
signal), then the signal, with buys dropped when a position exists or the
governor is halted or the allocation is ≤ 0, and sells dropped without a
position. -/
def backtest_symbol_action (position : Option Position) (halted : Bool)
    (sig : Signal) (quote_alloc last_price : ℚ) : TickAction :=
  match position with
  | some pos =>
    match stop_take_reason pos last_price with
    | some r => .close_position r
    | none =>
      match sig.action with
      | .buy => .no_action
      | .sell => .close_position sig.reason
      | .hold => .no_action
  | none =>
    match sig.action with
    | .buy =>
      if halted then .no_action
      else if quote_alloc ≤ 0 then .no_action
      else .open_position sig.reason
    | .sell => .no_action
    | .hold => .no_action

/-! ## Portfolio snapshot (backtest.py `_portfolio_snapshot` lines 209-213;
paper branch of bot.py `TradingBot._portfolio_snapshot` lines 131-150).
The positions dict is modelled as an association list; the prices dict
lookup `prices.get(sym, pos.entry_price)` as `find?` with default. -/

/-- `prices.get(sym, default)`. -/
def lookup_price (prices : List (String × ℚ)) (sym : String)
    (default : ℚ) : ℚ :=
  match prices.find? (fun p => p.1 = sym) with
  | some p => p.2
  | none => default

/-- `_portfolio_snapshot(cash_usdt, positions, prices)`: starts from cash and
adds `amount * prices.get(sym, entry_price)` per open position. -/
def portfolio_snapshot (cash_usdt : ℚ) (positions : List (String × Position))
    (prices : List (String × ℚ)) : ℚ :=
  positions.foldl
    (fun equity sp => equity + sp.2.amount * lookup_price prices sp.1 sp.2.entry_price)
    cash_usdt

/-! ## Live fill parsing (bot.py `TradingBot._parse_fill`, lines 290-318). -/

/-- One ccxt fee entry (a dict with optional "cost" and "currency" keys);
`none` models a missing key or a `None` value. -/
structure FeeEntry where
  cost : Option ℚ
  currency : Option String
deriving Repr, DecidableEq

/-- The slice of a ccxt order-response dict read by `_parse_fill`. -/
structure OrderResp where
  filled : Option ℚ
  average : Option ℚ
  price : Option ℚ
  fee : Option FeeEntry
  fees : List FeeEntry
  order_id : Option String
deriving Repr, DecidableEq

/-- Uniform fill record (`_Fill` in bot.py). -/
structure Fill where
  amount : ℚ
  price : ℚ
  fee_quote : ℚ
  order_id : Option String
deriving Repr, DecidableEq

/-- `symbol.split("/")[0]` (bot.py `_base_asset`). -/
def base_asset (symbol : String) : String :=
  ((symbol.splitOn "/").get? 0).getD ""

/-- `symbol.split("/")[1]` (bot.py `_quote_asset`). -/
def quote_asset (symbol : String) : String :=
  ((symbol.splitOn "/").get? 1).getD ""

/-- Python `float(x or 0.0) or fallback`: a missing / `None` / zero value
falls through to the fallback. -/
def numOr (x : Option ℚ) (fallback : ℚ) : ℚ :=
  let v := x.getD 0
  if v = 0 then fallback else v

/-- The accumulation `for f in fees: if currency == quote: total += cost`
from `_parse_fill`. -/
def fees_total (quote : String) (fees : List FeeEntry) : ℚ :=
  fees.foldl
    (fun total f =>
      if f.currency.getD "" = quote then total + f.cost.getD 0 else total)
    0

/-- `TradingBot._parse_fill(symbol, order, fallback_amount, fallback_price)`
(bot.py lines 290-318): `filled` falls back to the requested amount,
`average` to `price` then to the supplied fallback price; `fee_quote` is the
"fee" entry's cost when its currency is the quote asset, overwritten by the
quote-currency total of the "fees" list when that list is nonempty and the
total is positive.  The source computes `quote = _quote_asset(symbol)`
internally; here the quote asset is passed directly (`quote_asset` models
the split). -/
def parse_fill (quote : String) (order : OrderResp)
    (fallback_amount fallback_price : ℚ) : Fill :=
  let filled := numOr order.filled fallback_amount
  let average := numOr order.average (numOr order.price fallback_price)
  let fee_quote :=
    match order.fee with
    | some f => if f.currency.getD "" = quote then f.cost.getD 0 else 0
    | none => 0
  let fee_quote :=
    if order.fees ≠ [] ∧ 0 < fees_total quote order.fees then
      fees_total quote order.fees
    else fee_quote
  { amount := filled, price := average, fee_quote := fee_quote
    order_id := order.order_id }

/-- Modelled from the spec (section 4.5, live backend fill parsing), for
comparison with `parse_fill`: the fee recorded in quote currency is "the sum
of any fees whose currency matches the symbol's quote currency", and a fee
"in the base currency ... MUST be converted at the fill price before being
recorded as quote-currency fee".  All reported fee entries — the "fee" entry
and the "fees" list — are summed; `quote` and `base` are the two halves of
the symbol. -/
def spec_fee_quote (base quote : String) (fill_price : ℚ)
    (order : OrderResp) : ℚ :=
  let entries := order.fee.toList ++ order.fees
  (entries.map (fun f =>
    if f.currency.getD "" = quote then f.cost.getD 0
    else if f.currency.getD "" = base then f.cost.getD 0 * fill_price
    else 0)).sum

/-- Sum of the quote-currency costs of a fee list, in the filter/map/sum
form used to state what `parse_fill` records. -/
def quote_fee_sum (quote : String) (fees : List FeeEntry) : ℚ :=
  ((fees.filter (fun f => f.currency.getD "" = quote)).map
    (fun f => f.cost.getD 0)).sum

/-- The quote-currency cost contributed by the single "fee" entry. -/
def fee_entry_quote_cost (quote : String) : Option FeeEntry → ℚ
  | some f => if f.currency.getD "" = quote then f.cost.getD 0 else 0
  | none => 0

/-! ## IEEE-style extended values for the pandas indicator pipeline.

The indicator layer (strategy.py) runs on pandas float64 series, where
undefined positions are NaN and a positive value divided by zero is +∞.
`FVal` models a float64 value exactly (up to rounding, which we idealise
away, and up to the sign of zero, which is irrelevant here: the only place a
signed zero could matter is `avg_gain / avg_loss` with `avg_loss = ±0.0`,
and both signs lead to RSI = 100 when `avg_gain ≠ 0` and to NaN when
`avg_gain = 0`). -/

inductive FVal
  | num (q : ℚ)
  | pinf
  | minf
  | nan
deriving Repr, DecidableEq

namespace FVal

/-- IEEE negation. -/
def neg : FVal → FVal
  | num a => num (-a)
  | pinf => minf
  | minf => pinf
  | nan => nan

/-- IEEE addition. -/
def add : FVal → FVal → FVal
  | nan, _ => nan
  | _, nan => nan
  | pinf, minf => nan
  | minf, pinf => nan
  | pinf, _ => pinf
  | _, pinf => pinf
  | minf, _ => minf
  | _, minf => minf
  | num a, num b => num (a + b)

/-- IEEE subtraction. -/
def sub (a b : FVal) : FVal := a.add b.neg

/-- IEEE multiplication. -/
def mul : FVal → FVal → FVal
  | nan, _ => nan
  | _, nan => nan
  | pinf, pinf => pinf
  | pinf, minf => minf
  | minf, pinf => minf
  | minf, minf => pinf
  | pinf, num b => if b = 0 then nan else if 0 < b then pinf else minf
  | num a, pinf => if a = 0 then nan else if 0 < a then pinf else minf
  | minf, num b => if b = 0 then nan else if 0 < b then minf else pinf
  | num a, minf => if a = 0 then nan else if 0 < a then minf else pinf
  | num a, num b => num (a * b)

/-- IEEE division (with an unsigned zero: division of a nonzero finite
value by zero takes the sign of the numerator, as with +0.0). -/
def div : FVal → FVal → FVal
  | nan, _ => nan
  | _, nan => nan
  | pinf, pinf => nan
  | pinf, minf => nan
  | minf, pinf => nan
  | minf, minf => nan
  | pinf, num b => if 0 ≤ b then pinf else minf
  | minf, num b => if 0 ≤ b then minf else pinf
  | num _, pinf => num 0
  | num _, minf => num 0
  | num a, num b =>
    if b = 0 then
      if a = 0 then nan else if 0 < a then pinf else minf
    else num (a / b)

/-- IEEE strict comparison (`false` whenever either side is NaN). -/
def lt : FVal → FVal → Bool
  | nan, _ => false
  | _, nan => false
  | num a, num b => a < b
  | pinf, pinf => false
  | minf, minf => false
  | minf, _ => true
  | _, pinf => true
  | pinf, _ => false
  | _, minf => false

/-- IEEE non-strict comparison (`false` whenever either side is NaN). -/
def le : FVal → FVal → Bool
  | nan, _ => false
  | _, nan => false
  | num a, num b => a ≤ b
  | pinf, pinf => true
  | minf, minf => true
  | minf, _ => true
  | _, pinf => true
  | pinf, _ => false
  | _, minf => false

/-- `pd.isna`: true exactly on NaN (infinities are not NA). -/
def isna : FVal → Bool
  | nan => true
  | _ => false

end FVal

/-! ## Indicator library (strategy.py `_rsi`, `_macd`, rolling mean). -/

/-- The tail of `pandas.Series.ewm(adjust=False).mean()` after its seed:
`e_t = (1 - alpha) * e_{t-1} + alpha * x_t`. -/
def ewm_go (alpha e : ℚ) : List ℚ → List ℚ
  | [] => []
  | x :: xs =>
    let e2 := (1 - alpha) * e + alpha * x
    e2 :: ewm_go alpha e2 xs

/-- `series.ewm(alpha, adjust=False).mean()` on an all-finite series: seeded
with the first element, then the recurrence. -/
def ewm_rec (alpha : ℚ) : List ℚ → List ℚ
  | [] => []
  | x :: xs => x :: ewm_go alpha x xs

/-- `close.diff()` without its leading NaN: `d_i = x_{i+1} - x_i`
(length one less than the input). -/
def diffs (closes : List ℚ) : List ℚ :=
  List.zipWith (fun a b => a - b) closes.tail closes

/-- Mark the first positions of a smoothed series as undefined
(`min_periods`): position `i` of the overall series is defined once `i`
non-NaN observations have been seen, i.e. once `period ≤ i`. -/
def mark_ready (period : ℕ) (i : ℕ) : List ℚ → List FVal
  | [] => []
  | x :: xs =>
    (if i < period then FVal.nan else FVal.num x) :: mark_ready period (i + 1) xs

/-- Wilder smoothing of a gain/loss series as `_rsi` computes it:
`ewm(alpha = 1/period, adjust=False, min_periods=period).mean()` applied to
a series whose position 0 (the leading NaN of `diff`) is undefined.  `xs` is
the series from position 1 on; the output is aligned with the close series
(its head is the NaN at position 0).  Position `i ≥ 1` carries the ewm
recurrence value and is defined once `i` observations have been seen, i.e.
once `i ≥ period`. -/
def wilder_avg (period : ℕ) (xs : List ℚ) : List FVal :=
  FVal.nan :: mark_ready period 1 (ewm_rec (1 / (period : ℚ)) xs)

/-- The smoothed gain series of `_rsi` (strategy.py lines 16-23):
`delta.clip(lower=0)` smoothed by the Wilder average. -/
def avg_gain (period : ℕ) (closes : List ℚ) : List FVal :=
  wilder_avg period ((diffs closes).map (fun d => max d 0))

/-- The smoothed loss series of `_rsi`: `-delta.clip(upper=0)` smoothed by
the Wilder average. -/
def avg_loss (period : ℕ) (closes : List ℚ) : List FVal :=
  wilder_avg period ((diffs closes).map (fun d => max (-d) 0))

/-- `_rsi(close, period)` (strategy.py lines 16-23):
`100 - 100 / (1 + avg_gain / avg_loss)` computed pointwise in float
semantics. -/
def rsi_series (period : ℕ) (closes : List ℚ) : List FVal :=
  List.zipWith
    (fun g l =>
      FVal.sub (FVal.num 100)
        (FVal.div (FVal.num 100) (FVal.add (FVal.num 1) (FVal.div g l))))
    (avg_gain period closes) (avg_loss period closes)

/-- `series.ewm(span, adjust=False).mean()`: `alpha = 2 / (span + 1)`. -/
def ema_span (span : ℕ) (xs : List ℚ) : List ℚ :=
  ewm_rec (2 / ((span : ℚ) + 1)) xs

/-- The histogram returned by `_macd(close, fast, slow, sig)` (strategy.py
lines 26-32): `macd_line - signal_line`.  All positions are finite, so the
result is a plain rational series. -/
def macd_hist (fast slow sig : ℕ) (closes : List ℚ) : List ℚ :=
  let macd_line :=
    List.zipWith (fun a b => a - b) (ema_span fast closes) (ema_span slow closes)
  let signal_line := ewm_rec (2 / ((sig : ℚ) + 1)) macd_line
  List.zipWith (fun a b => a - b) macd_line signal_line

/-- Helper for `rolling_mean`: walk the series keeping the 0-based position
`i`; the mean at position `i` is over `xs[i + 1 - window .. i]`. -/
def rolling_from (window : ℕ) (xs : List ℚ) (i : ℕ) : List ℚ → List FVal
  | [] => []
  | _ :: rest =>
    (if i + 1 < window then FVal.nan
     else FVal.num (((xs.take (i + 1)).drop (i + 1 - window)).sum / (window : ℚ)))
      :: rolling_from window xs (i + 1) rest

/-- `series.rolling(window).mean()`: arithmetic mean of the last `window`
values, NaN while fewer than `window` values are available. -/
def rolling_mean (window : ℕ) (xs : List ℚ) : List FVal :=
  rolling_from window xs 0 xs

/-! ## Signal engine (strategy.py `RsiMacdVolumeStrategy.generate_signal`). -/

/-- The strategy parameters read by `generate_signal`
(models.py `StrategyConfig`; `timeframe` is not used by the engine). -/
structure StrategyConfig where
  ohlcv_limit : ℕ
  rsi_period : ℕ
  rsi_oversold : ℚ
  rsi_overbought : ℚ
  macd_fast : ℕ
  macd_slow : ℕ
  macd_signal : ℕ
  volume_ma_period : ℕ
  volume_spike_mult : ℚ
deriving Repr, DecidableEq

/-- `rsi.iloc[-1]` over the candle closes (the `.getD nan` branch is
unreachable when the window is nonempty). -/
def last_rsi (cfg : StrategyConfig) (candles : List Candle) : FVal :=
  let rsi := rsi_series cfg.rsi_period (candles.map Candle.close)
  (rsi.get? (rsi.length - 1)).getD FVal.nan

/-- `hist.iloc[-2]` (the `.getD 0` branch is unreachable when the window has
at least two candles). -/
def hist_prev_of (cfg : StrategyConfig) (candles : List Candle) : ℚ :=
  let hist := macd_hist cfg.macd_fast cfg.macd_slow cfg.macd_signal
    (candles.map Candle.close)
  (hist.get? (hist.length - 2)).getD 0

/-- `hist.iloc[-1]`. -/
def hist_curr_of (cfg : StrategyConfig) (candles : List Candle) : ℚ :=
  let hist := macd_hist cfg.macd_fast cfg.macd_slow cfg.macd_signal
    (candles.map Candle.close)
  (hist.get? (hist.length - 1)).getD 0

/-- The last candle volume, `df["volume"].iloc[-1]`. -/
def last_vol (candles : List Candle) : ℚ :=
  let volumes := candles.map Candle.volume
  (volumes.get? (volumes.length - 1)).getD 0

/-- `vol_ma.iloc[-1]`. -/
def last_vol_ma (cfg : StrategyConfig) (candles : List Candle) : FVal :=
  let vol_ma := rolling_mean cfg.volume_ma_period (candles.map Candle.volume)
  (vol_ma.get? (vol_ma.length - 1)).getD FVal.nan

/-- `RsiMacdVolumeStrategy.generate_signal(candles, position)` (strategy.py
lines 41-85).  The MACD histogram values are finite rationals in this model
(their pandas counterparts are finite floats), so the `pd.isna` test of the
source reduces to testing the last RSI and the last rolling-mean volume.
The numeric interpolation inside the python buy/sell reason f-strings is
elided; the hold reasons are literal. -/
def generate_signal (cfg : StrategyConfig) (candles : List Candle)
    (position : Option Position) : Signal :=
  if candles.length < max cfg.ohlcv_limit 50 then
    ⟨.hold, "insufficient candle history"⟩
  else
    let rsi_curr := last_rsi cfg candles
    let hist_prev := hist_prev_of cfg candles
    let hist_curr := hist_curr_of cfg candles
    let vol_curr := last_vol candles
    let vol_ma_curr := last_vol_ma cfg candles
    if rsi_curr.isna || vol_ma_curr.isna then ⟨.hold, "indicators not ready"⟩
    else
      let bullish_cross := decide (hist_prev ≤ 0) && decide (0 < hist_curr)
      let bearish_cross := decide (0 ≤ hist_prev) && decide (hist_curr < 0)
      let vol_spike :=
        FVal.lt (FVal.mul vol_ma_curr (FVal.num cfg.volume_spike_mult))
          (FVal.num vol_curr)
      match position with
      | none =>
        if FVal.le rsi_curr (FVal.num cfg.rsi_oversold) && bullish_cross
            && vol_spike then
          ⟨.buy, "RSI <= oversold, MACD bullish, volume spike"⟩
        else ⟨.hold, "no entry"⟩
      | some _ =>
        if FVal.le (FVal.num cfg.rsi_overbought) rsi_curr && bearish_cross
            && vol_spike then
          ⟨.sell, "RSI >= overbought, MACD bearish, volume spike"⟩
        else ⟨.hold, "hold position"⟩

/-! ## Concrete fixtures used to exercise the definitions. -/

/-- Concrete 50-candle window for exercising the signal engine: closes
alternate 1, 2 (so the period-1 Wilder averages equal the last gain/loss),
all volumes 1. -/
def witness_candles : List Candle :=
  [⟨0, 1, 2, 1, 1, 1⟩, ⟨1, 1, 2, 1, 2, 1⟩, ⟨2, 1, 2, 1, 1, 1⟩, ⟨3, 1, 2, 1, 2, 1⟩, ⟨4, 1, 2, 1, 1, 1⟩,
   ⟨5, 1, 2, 1, 2, 1⟩, ⟨6, 1, 2, 1, 1, 1⟩, ⟨7, 1, 2, 1, 2, 1⟩, ⟨8, 1, 2, 1, 1, 1⟩, ⟨9, 1, 2, 1, 2, 1⟩,
   ⟨10, 1, 2, 1, 1, 1⟩, ⟨11, 1, 2, 1, 2, 1⟩, ⟨12, 1, 2, 1, 1, 1⟩, ⟨13, 1, 2, 1, 2, 1⟩, ⟨14, 1, 2, 1, 1, 1⟩,
   ⟨15, 1, 2, 1, 2, 1⟩, ⟨16, 1, 2, 1, 1, 1⟩, ⟨17, 1, 2, 1, 2, 1⟩, ⟨18, 1, 2, 1, 1, 1⟩, ⟨19, 1, 2, 1, 2, 1⟩,
   ⟨20, 1, 2, 1, 1, 1⟩, ⟨21, 1, 2, 1, 2, 1⟩, ⟨22, 1, 2, 1, 1, 1⟩, ⟨23, 1, 2, 1, 2, 1⟩, ⟨24, 1, 2, 1, 1, 1⟩,
   ⟨25, 1, 2, 1, 2, 1⟩, ⟨26, 1, 2, 1, 1, 1⟩, ⟨27, 1, 2, 1, 2, 1⟩, ⟨28, 1, 2, 1, 1, 1⟩, ⟨29, 1, 2, 1, 2, 1⟩,
   ⟨30, 1, 2, 1, 1, 1⟩, ⟨31, 1, 2, 1, 2, 1⟩, ⟨32, 1, 2, 1, 1, 1⟩, ⟨33, 1, 2, 1, 2, 1⟩, ⟨34, 1, 2, 1, 1, 1⟩,
   ⟨35, 1, 2, 1, 2, 1⟩, ⟨36, 1, 2, 1, 1, 1⟩, ⟨37, 1, 2, 1, 2, 1⟩, ⟨38, 1, 2, 1, 1, 1⟩, ⟨39, 1, 2, 1, 2, 1⟩,
   ⟨40, 1, 2, 1, 1, 1⟩, ⟨41, 1, 2, 1, 2, 1⟩, ⟨42, 1, 2, 1, 1, 1⟩, ⟨43, 1, 2, 1, 2, 1⟩, ⟨44, 1, 2, 1, 1, 1⟩,
   ⟨45, 1, 2, 1, 2, 1⟩, ⟨46, 1, 2, 1, 1, 1⟩, ⟨47, 1, 2, 1, 2, 1⟩, ⟨48, 1, 2, 1, 1, 1⟩, ⟨49, 1, 2, 1, 2, 1⟩]

/-- Strategy parameters for the concrete window: 50-candle history,
RSI period 1, MACD spans 1 (degenerate, histogram identically 0), volume
window 1, spike multiplier 1, thresholds 30 / 70. -/
def witness_cfg : StrategyConfig := ⟨50, 1, 30, 70, 1, 1, 1, 1, 1⟩

/-! ## Shared helper lemmas. -/

/-- Shape of a successful `paper_buy`: the guard holds and the fill is the
clamped-spend triple. -/
lemma paper_buy_eq_some {cash q p f : ℚ} {fill : BuyFill}
    (h : paper_buy cash q p f = some fill) :
    ¬ min q cash ≤ 0 ∧
      fill = ⟨cash - min (min q cash) (cash / (1 + f))
                - min (min q cash) (cash / (1 + f)) * f,
              min (min q cash) (cash / (1 + f)) / p,
              min (min q cash) (cash / (1 + f)) * f⟩ := by
  unfold paper_buy at h
  by_cases h0 : min q cash ≤ 0
  · simp [h0] at h
  · simp [h0] at h
    exact ⟨h0, h.symm⟩

/-- A successful paper buy never leaves negative cash: the spend is clamped
to `cash / (1 + fee_pct)`. -/
lemma paper_buy_new_cash_nonneg {cash q p f : ℚ} (hf : 0 ≤ f)
    {fill : BuyFill} (h : paper_buy cash q p f = some fill) :
    0 ≤ fill.new_cash := by
  obtain ⟨h0, rfl⟩ := paper_buy_eq_some h
  have h1f : (0:ℚ) < 1 + f := by linarith
  have hle : min (min q cash) (cash / (1 + f)) ≤ cash / (1 + f) :=
    min_le_right _ _
  have hmul : min (min q cash) (cash / (1 + f)) * (1 + f) ≤ cash :=
    (le_div_iff₀ h1f).mp hle
  simp only [BuyFill.new_cash]
  nlinarith [hmul]

/-- A paper sell with nonnegative amount, price and a fee rate ≤ 1 never
decreases cash below zero. -/
lemma paper_sell_new_cash_nonneg {cash a p f : ℚ} (hc : 0 ≤ cash)
    (ha : 0 ≤ a) (hp : 0 ≤ p) (hf1 : f ≤ 1) :
    0 ≤ (paper_sell cash a p f).1 := by
  have hap : 0 ≤ a * p := mul_nonneg ha hp
  show 0 ≤ cash + (a * p - a * p * f)
  nlinarith [mul_nonneg hap (by linarith : (0:ℚ) ≤ 1 - f)]

/-- The cash invariant, generalised to any nonnegative starting cash. -/
lemma applyFills_nonneg (f : ℚ) (hf0 : 0 ≤ f) (hf1 : f ≤ 1 / 100)
    (ops : List FillOp) :
    ∀ cash : ℚ, 0 ≤ cash → (∀ op ∈ ops, op.valid) →
      ∀ c, applyFills f cash ops = some c → 0 ≤ c := by
  induction ops with
  | nil =>
    intro cash hc _ c h
    simp [applyFills] at h
    exact h ▸ hc
  | cons op ops ih =>
    intro cash hc hv c h
    simp only [applyFills] at h
    cases hop : applyFill f cash op with
    | none => rw [hop] at h; exact absurd h (by simp)
    | some c1 =>
      rw [hop] at h
      have hc1 : 0 ≤ c1 := by
        cases op with
        | buy q p =>
          simp only [applyFill] at hop
          obtain ⟨fill, hfill, rfl⟩ := Option.map_eq_some'.mp hop
          exact paper_buy_new_cash_nonneg hf0 hfill
        | sell a p =>
          have hval := hv _ (List.mem_cons_self _ _)
          simp only [FillOp.valid] at hval
          simp only [applyFill, Option.some.injEq] at hop
          subst hop
          exact paper_sell_new_cash_nonneg hc hval.2 (le_of_lt hval.1)
            (by linarith)
      exact ih c1 hc1 (fun o ho => hv o (List.mem_cons_of_mem _ ho)) c h

/-- An `update_daily_equity` call carrying the already-stored date keeps the
stored date and never clears the halt flag. -/
lemma update_same_day_preserves (limit : ℚ) (s : RiskState) (day : Int)
    (equity : ℚ) (hd : s.day = some day) (hh : s.halted = true) :
    (update_daily_equity limit s day equity).halted = true ∧
      (update_daily_equity limit s day equity).day = some day := by
  unfold update_daily_equity
  rw [if_neg (by simp [hd])]
  cases hds : s.day_start_equity with
  | none => simp [hd, hh]
  | some start =>
    dsimp only
    split_ifs <;> simp [hd, hh]

/-- Folding `acc + f x` over a list sums the mapped values. -/
lemma foldl_add_map {α : Type} (f : α → ℚ) (c : ℚ) (l : List α) :
    l.foldl (fun acc x => acc + f x) c = c + (l.map f).sum := by
  induction l generalizing c with
  | nil => simp
  | cons x xs ih => simp [ih, add_assoc]

/-- Folding a guarded accumulation equals summing over the filtered list. -/
lemma foldl_if_add {α : Type} (P : α → Prop) [DecidablePred P]
    (c : α → ℚ) (a : ℚ) (l : List α) :
    l.foldl (fun t f => if P f then t + c f else t) a
      = a + ((l.filter (fun x => decide (P x))).map c).sum := by
  induction l generalizing a with
  | nil => simp
  | cons x xs ih => by_cases h : P x <;> simp [h, ih, add_assoc]

/-- The imperative fee accumulation of `_parse_fill` computes the
filter/map/sum form. -/
lemma fees_total_eq_quote_fee_sum (quote : String) (fees : List FeeEntry) :
    fees_total quote fees = quote_fee_sum quote fees := by
  unfold fees_total quote_fee_sum
  rw [foldl_if_add]
  simp

/-- `get?` distributes over `zipWith`. -/
lemma get?_zipWith {α β γ : Type} (f : α → β → γ) (as : List α)
    (bs : List β) (i : ℕ) :
    (List.zipWith f as bs).get? i =
      match as.get? i, bs.get? i with
      | some a, some b => some (f a b)
      | _, _ => none := by
  induction as generalizing bs i with
  | nil => simp
  | cons a as ih =>
    cases bs with
    | nil => simp
    | cons b bs =>
      cases i with
      | zero => simp
      | succ n => simpa using ih bs n

/-! ## Claim theorems. -/

/-- C1 (counterexample): the claim "fee_quote is the sum of reported fees in
the quote currency, with base-currency fees converted at the fill price" is
false for `_parse_fill`.  Symbol BTC/USDT (quote USDT, base BTC), fill price
100.  First order: a single base-currency fee of 1 BTC — the code records 0,
the claimed value is 100.  Second order: a "fee" entry of 1 USDT plus a
"fees" list entry of 2 USDT — the code records 2 (the "fees" list overwrites
the "fee" entry instead of being summed with it), the claimed value is 3. -/
theorem C1_counterexample :
    (parse_fill "USDT"
        ⟨some 2, some 100, none, some ⟨some 1, some "BTC"⟩, [], none⟩
        2 100).fee_quote = 0 ∧
    spec_fee_quote "BTC" "USDT" 100
        ⟨some 2, some 100, none, some ⟨some 1, some "BTC"⟩, [], none⟩
      = 100 ∧
    (parse_fill "USDT"
        ⟨some 2, some 100, none, some ⟨some 1, some "USDT"⟩,
          [⟨some 2, some "USDT"⟩], none⟩ 2 100).fee_quote = 2 ∧
    spec_fee_quote "BTC" "USDT" 100
        ⟨some 2, some 100, none, some ⟨some 1, some "USDT"⟩,
          [⟨some 2, some "USDT"⟩], none⟩ = 3 := by
  have hbq : ¬ (("BTC" : String) = "USDT") := by decide
  refine ⟨?_, ?_, ?_, ?_⟩
  · simp [parse_fill, fees_total, numOr, hbq]
  · simp [spec_fee_quote, hbq]
  · simp [parse_fill, fees_total, numOr]
  · simp [spec_fee_quote]
    norm_num

/-- C1 (amended): for every order response, `_parse_fill` records as
`fee_quote` the quote-currency sum of the "fees" list when that list is
nonempty and the sum is positive, and otherwise the "fee" entry's cost when
its currency is the quote currency; fee entries in any other currency —
including the base currency — contribute nothing and are never converted at
the fill price. -/
theorem C1_parse_fill_fee (quote : String) (order : OrderResp)
    (fallback_amount fallback_price : ℚ) :
    (parse_fill quote order fallback_amount fallback_price).fee_quote =
      if order.fees ≠ [] ∧ 0 < quote_fee_sum quote order.fees
      then quote_fee_sum quote order.fees
      else fee_entry_quote_cost quote order.fee := by
  unfold parse_fill
  rw [fees_total_eq_quote_fee_sum]
  cases order.fee <;> rfl

/-- C2 (counterexample): the claim "at every output position at or beyond
`period` where the Wilder-smoothed average loss is 0, the RSI equals 100" is
false.  For the flat closes [1, 1, 1] with period 2, at position 2 the
smoothed loss is 0 (and so is the smoothed gain), and the RSI is NaN
(pandas computes 0/0 = NaN), not 100. -/
theorem C2_counterexample :
    1 ≤ 2 ∧ 2 ≤ (2:ℕ) ∧
    (avg_loss 2 [1, 1, 1]).get? 2 = some (FVal.num 0) ∧
    (rsi_series 2 [1, 1, 1]).get? 2 = some FVal.nan := by
  refine ⟨by norm_num, by norm_num, ?_, ?_⟩
  · norm_num [avg_loss, wilder_avg, ewm_rec, ewm_go, diffs, mark_ready]
  · norm_num [rsi_series, avg_gain, avg_loss, wilder_avg, ewm_rec, ewm_go,
      diffs, mark_ready, FVal.sub, FVal.add, FVal.div, FVal.neg]

/-- C2 (amended): at any output position where the Wilder-smoothed average
loss is 0, the RSI equals 100 provided the smoothed average gain at that
position is nonzero; when both smoothed averages are 0 (a flat window) the
RSI is undefined (NaN). -/
theorem C2_rsi_at_zero_loss (period : ℕ) (closes : List ℚ) (i : ℕ)
    (hl : (avg_loss period closes).get? i = some (FVal.num 0)) :
    (∀ g : ℚ, (avg_gain period closes).get? i = some (FVal.num g) → g ≠ 0 →
      (rsi_series period closes).get? i = some (FVal.num 100)) ∧
    ((avg_gain period closes).get? i = some (FVal.num 0) →
      (rsi_series period closes).get? i = some FVal.nan) := by
  constructor
  · intro g hg hg0
    unfold rsi_series
    rw [get?_zipWith, hg, hl]
    rcases lt_or_gt_of_ne hg0 with h | h
    · simp [FVal.div, FVal.add, FVal.sub, FVal.neg, hg0,
        not_lt.mpr (le_of_lt h)]
    · simp [FVal.div, FVal.add, FVal.sub, FVal.neg, hg0, h]
  · intro hg
    unfold rsi_series
    rw [get?_zipWith, hg, hl]
    simp [FVal.div, FVal.add, FVal.sub, FVal.neg]

/-- C2 (witness): closes [1, 2, 3] with period 2 — the smoothed loss at
position 2 is 0, the smoothed gain is 1 ≠ 0, and the RSI there is 100. -/
theorem C2_witness :
    (avg_loss 2 [1, 2, 3]).get? 2 = some (FVal.num 0) ∧
    (avg_gain 2 [1, 2, 3]).get? 2 = some (FVal.num 1) ∧
    (rsi_series 2 [1, 2, 3]).get? 2 = some (FVal.num 100) := by
  have hl : (avg_loss 2 [1, 2, 3]).get? 2 = some (FVal.num 0) := by
    norm_num [avg_loss, wilder_avg, ewm_rec, ewm_go, diffs, mark_ready]
  have hg : (avg_gain 2 [1, 2, 3]).get? 2 = some (FVal.num 1) := by
    norm_num [avg_gain, wilder_avg, ewm_rec, ewm_go, diffs, mark_ready]
  exact ⟨hl, hg,
    (C2_rsi_at_zero_loss 2 [1, 2, 3] 2 hl).1 1 hg (by norm_num)⟩

/-- C3 (counterexample): the claim "a position with entry 100, stop 97,
take 103 is closed with reason stop-loss on a candle with high 104 and
low 96" is false: stop/take are evaluated on the candle CLOSE only.  For
the candle (high 104, low 96, close 100) and a hold signal, the tick takes
no action at all — the position is not closed. -/
theorem C3_counterexample :
    (Candle.high ⟨0, 100, 104, 96, 100, 1⟩ = 104) ∧
    (Candle.low ⟨0, 100, 104, 96, 100, 1⟩ = 96) ∧
    process_symbol
        (some ⟨"BTC/USDT", 1, 100, 0, 97, 103, 0⟩) false
        ⟨.hold, "hold position"⟩ 0
        (Candle.close ⟨0, 100, 104, 96, 100, 1⟩)
      = .no_action := by
  refine ⟨rfl, rfl, ?_⟩
  norm_num [process_symbol, stop_take_reason]

/-- C3 (amended): stop/take are evaluated before the signal, but on the
candle's close price: for a position with stop 97 and take 103 processed on
a candle with high 104 and low 96, the tick closes with "stop-loss" iff the
close is ≤ 97 (checked first, so stop-loss has priority), closes with
"take-profit" iff the close is ≥ 103, and on a hold signal leaves the
position untouched when the close lies strictly between the two levels —
the candle's high and low never trigger an exit. -/
theorem C3_stop_take_on_close (candle : Candle) (pos : Position)
    (sig : Signal) (halted : Bool) (quote_alloc : ℚ)
    (hhigh : candle.high = 104) (hlow : candle.low = 96)
    (hstop : pos.stop_loss_price = 97) (htake : pos.take_profit_price = 103) :
    (candle.close ≤ 97 →
      process_symbol (some pos) halted sig quote_alloc candle.close
        = .close_position "stop-loss") ∧
    (103 ≤ candle.close →
      process_symbol (some pos) halted sig quote_alloc candle.close
        = .close_position "take-profit") ∧
    (97 < candle.close → candle.close < 103 → sig.action = .hold →
      process_symbol (some pos) halted sig quote_alloc candle.close
        = .no_action) := by
  refine ⟨?_, ?_, ?_⟩
  · intro h
    simp [process_symbol, stop_take_reason, hstop, h]
  · intro h
    have hns : ¬ candle.close ≤ 97 := by linarith
    simp [process_symbol, stop_take_reason, hstop, htake, hns, h]
  · intro h1 h2 hact
    have hns : ¬ candle.close ≤ 97 := by linarith
    have hnt : ¬ candle.close ≥ 103 := by linarith
    simp [process_symbol, stop_take_reason, hstop, htake, hns, hnt, hact]

/-- C3 (witness): the amended statement at a concrete candle whose close is
96 (≤ 97): the tick closes with "stop-loss". -/
theorem C3_witness :
    (Candle.close ⟨0, 97, 104, 96, 96, 1⟩ ≤ 97) ∧
    process_symbol (some ⟨"BTC/USDT", 1, 100, 0, 97, 103, 0⟩) false
        ⟨.hold, "hold position"⟩ 0 (Candle.close ⟨0, 97, 104, 96, 96, 1⟩)
      = .close_position "stop-loss" := by
  have h : Candle.close ⟨0, 97, 104, 96, 96, 1⟩ ≤ 97 := by norm_num
  exact ⟨h,
    (C3_stop_take_on_close ⟨0, 97, 104, 96, 96, 1⟩
      ⟨"BTC/USDT", 1, 100, 0, 97, 103, 0⟩ ⟨.hold, "hold position"⟩ false 0
      rfl rfl rfl rfl).1 h⟩

/-- C4: in paper mode, for every sequence of paper buy and sell fills
starting from cash > 0, with fee_pct ∈ [0, 1/100], positive prices and
nonnegative sell amounts, the cash balance stays ≥ 0 after every fill is
applied (every prefix of the sequence is itself quantified over, so every
intermediate balance is covered). -/
theorem C4_paper_cash_nonneg (fee_pct cash : ℚ) (ops : List FillOp)
    (hf0 : 0 ≤ fee_pct) (hf1 : fee_pct ≤ 1 / 100) (hc : 0 < cash)
    (hv : ∀ op ∈ ops, op.valid) :
    ∀ c, applyFills fee_pct cash ops = some c → 0 ≤ c :=
  applyFills_nonneg fee_pct hf0 hf1 ops cash (le_of_lt hc) hv

/-- C4 (witness): starting cash 100, fee 1/1000, a buy of 50 quote at price
10 followed by a sell of 5 base at price 10 leaves cash 999/10 ≥ 0. -/
theorem C4_witness :
    applyFills (1/1000) 100 [FillOp.buy 50 10, FillOp.sell 5 10]
        = some (999/10) ∧
    (0:ℚ) ≤ 999/10 := by
  have h : applyFills (1/1000) 100 [FillOp.buy 50 10, FillOp.sell 5 10]
      = some (999/10) := by
    norm_num [applyFills, applyFill, paper_buy, paper_sell]
  refine ⟨h, C4_paper_cash_nonneg (1/1000) 100 _ (by norm_num) (by norm_num)
    (by norm_num) ?_ _ h⟩
  intro op hop
  rcases List.mem_cons.mp hop with h1 | h1
  · subst h1; exact (by norm_num : (0:ℚ) < 10)
  · rcases List.mem_cons.mp h1 with h2 | h2
    · subst h2; exact ⟨by norm_num, by norm_num⟩
    · exact absurd h2 (List.not_mem_nil _)

/-- C5 (counterexample): the claim "paper_buy raises exactly when the input
quote_to_spend is ≤ 0, and succeeds otherwise" is false: with cash 0,
quote_to_spend 1 (> 0), price 1, fee 0, the code clamps the spend to
min(1, 0) = 0 first and raises. -/
theorem C5_counterexample :
    (0:ℚ) < 1 ∧ paper_buy 0 1 1 0 = none :=
  ⟨by norm_num, by norm_num [paper_buy]⟩

/-- C5 (amended): `paper_buy(cash, quote_to_spend, price, fee_pct)` raises
exactly when the cash-clamped spend `min(quote_to_spend, cash)` is ≤ 0 (so
also for positive input when cash ≤ 0); on success the effective spend `s =
min(min(quote_to_spend, cash), cash / (1 + fee_pct))` satisfies
`s · (1 + fee_pct) ≤ cash` and the fill is `amount = s / price`,
`fee = s · fee_pct`, `new_cash = cash − s − fee`. -/
theorem C5_paper_buy_spec (cash q p f : ℚ) (hp : 0 < p) (hf : 0 ≤ f) :
    (paper_buy cash q p f = none ↔ min q cash ≤ 0) ∧
    (∀ fill, paper_buy cash q p f = some fill →
      fill.base_amount = min (min q cash) (cash / (1 + f)) / p ∧
      fill.fee_quote = min (min q cash) (cash / (1 + f)) * f ∧
      fill.new_cash = cash - min (min q cash) (cash / (1 + f))
        - min (min q cash) (cash / (1 + f)) * f ∧
      min (min q cash) (cash / (1 + f)) * (1 + f) ≤ cash) := by
  constructor
  · unfold paper_buy
    by_cases h0 : min q cash ≤ 0 <;> simp [h0]
  · intro fill hfill
    obtain ⟨h0, rfl⟩ := paper_buy_eq_some hfill
    have h1f : (0:ℚ) < 1 + f := by linarith
    exact ⟨rfl, rfl, rfl, (le_div_iff₀ h1f).mp (min_le_right _ _)⟩

/-- C5 (witness): the amended statement at cash 100, spend 50, price 10,
fee 1/100. -/
theorem C5_witness :
    (0:ℚ) < 10 ∧ (0:ℚ) ≤ 1/100 ∧
    (paper_buy 100 50 10 (1/100) = none ↔ min (50:ℚ) 100 ≤ 0) := by
  refine ⟨by norm_num, by norm_num, ?_⟩
  exact (C5_paper_buy_spec 100 50 10 (1/100) (by norm_num) (by norm_num)).1

/-- C6: round-trip law — for every cash, fee rate f ≥ 0 and price p > 0,
buying a target quote spend q with 0 < q and q·(1+f) ≤ cash and then selling
the whole bought amount at the same price leaves final cash exactly
cash − 2·q·f (exact in rational arithmetic, hence within floating
tolerance). -/
theorem C6_round_trip (cash q p f : ℚ) (hp : 0 < p) (hf : 0 ≤ f)
    (hq : 0 < q) (hqc : q * (1 + f) ≤ cash) :
    ∃ fill, paper_buy cash q p f = some fill ∧
      (paper_sell fill.new_cash fill.base_amount p f).1
        = cash - 2 * q * f := by
  have h1f : (0:ℚ) < 1 + f := by linarith
  have hqcash : q ≤ cash := by nlinarith
  have hqdiv : q ≤ cash / (1 + f) := (le_div_iff₀ h1f).mpr hqc
  have hmin1 : min q cash = q := min_eq_left hqcash
  have hq2 : min (min q cash) (cash / (1 + f)) = q := by
    rw [hmin1]; exact min_eq_left hqdiv
  refine ⟨⟨cash - q - q * f, q / p, q * f⟩, ?_, ?_⟩
  · unfold paper_buy
    rw [hmin1, if_neg (by linarith)]
    rw [hmin1] at hq2
    rw [hq2]
  · show (cash - q - q * f) + (q / p * p - q / p * p * f)
      = cash - 2 * q * f
    rw [div_mul_cancel₀ _ (ne_of_gt hp)]
    ring

/-- C6 (witness): cash 10000, q 1000, p 100, f 1/1000 — the round trip ends
at 10000 − 2 = 9998. -/
theorem C6_witness :
    ∃ fill, paper_buy 10000 1000 100 (1/1000) = some fill ∧
      (paper_sell fill.new_cash fill.base_amount 100 (1/1000)).1
        = 10000 - 2 * 1000 * (1/1000) :=
  C6_round_trip 10000 1000 100 (1/1000) (by norm_num) (by norm_num)
    (by norm_num) (by norm_num)

/-- C7: `update_daily_equity` with drawdown limit ∈ (0, 1]: (1) a call whose
UTC date differs from the stored date resets — it stores the new date,
records the equity as the day-open equity and clears the halt flag; (2) a
same-date call with a recorded day-open equity `start` and
`equity ≤ start · (1 − limit)` sets halted; (3) halted latches — over any
sequence of further calls carrying the stored date, the flag never returns
to false. -/
theorem C7_daily_kill_switch (limit : ℚ) (hl0 : 0 < limit)
    (hl1 : limit ≤ 1) :
    (∀ (s : RiskState) (day : Int) (equity : ℚ), s.day ≠ some day →
        update_daily_equity limit s day equity
          = ⟨some day, some equity, false⟩) ∧
    (∀ (s : RiskState) (day : Int) (equity start : ℚ), s.day = some day →
        s.day_start_equity = some start → equity ≤ start * (1 - limit) →
        (update_daily_equity limit s day equity).halted = true) ∧
    (∀ (s : RiskState) (day : Int) (calls : List (Int × ℚ)),
        s.day = some day → s.halted = true → (∀ c ∈ calls, c.1 = day) →
        (run_daily_updates limit s calls).halted = true) := by
  refine ⟨?_, ?_, ?_⟩
  · intro s day equity h
    unfold update_daily_equity
    rw [if_pos h]
  · intro s day equity start hd hds hdd
    unfold update_daily_equity
    rw [if_neg (by simp [hd]), hds]
    dsimp only
    rw [if_neg (not_le.mpr hl0), if_pos hdd]
  · intro s day calls
    induction calls generalizing s with
    | nil => intro _ hh _; exact hh
    | cons c cs ih =>
      intro hd hh hc
      have hcd : c.1 = day := hc c (List.mem_cons_self _ _)
      have step := update_same_day_preserves limit s day c.2 hd hh
      show (run_daily_updates limit
        (update_daily_equity limit s c.1 c.2) cs).halted = true
      rw [hcd]
      exact ih _ step.2 step.1 (fun x hx => hc x (List.mem_cons_of_mem _ hx))

/-- C7 (witness): limit 1/20 (5%), stored day 0 with day-open equity 10000;
a same-day call at equity 9400 ≤ 10000 · (19/20) = 9500 halts. -/
theorem C7_witness :
    (0:ℚ) < 1/20 ∧ (1/20:ℚ) ≤ 1 ∧
    (update_daily_equity (1/20) ⟨some 0, some 10000, false⟩ 0 9400).halted
      = true := by
  refine ⟨by norm_num, by norm_num, ?_⟩
  exact (C7_daily_kill_switch (1/20) (by norm_num) (by norm_num)).2.1
    ⟨some 0, some 10000, false⟩ 0 9400 10000 rfl rfl (by norm_num)

/-- C8: while the risk governor is halted, no per-symbol decision — in the
trading loop or in the backtester — ever opens a position, and the close
decisions (stop-loss, take-profit, sell-signal closes) are exactly those
that would be taken when not halted: the halt blocks only new entries and
never suppresses or forces a close. -/
theorem C8_halt_blocks_only_entries :
    ∀ (position : Option Position) (sig : Signal)
      (quote_alloc last_price : ℚ),
      (∀ r, process_symbol position true sig quote_alloc last_price
              ≠ .open_position r) ∧
      (∀ r, process_symbol position true sig quote_alloc last_price
              = .close_position r ↔
            process_symbol position false sig quote_alloc last_price
              = .close_position r) ∧
      (∀ r, backtest_symbol_action position true sig quote_alloc last_price
              ≠ .open_position r) ∧
      (∀ r, backtest_symbol_action position true sig quote_alloc last_price
              = .close_position r ↔
            backtest_symbol_action position false sig quote_alloc last_price
              = .close_position r) := by
  intro position sig qa lp
  cases position with
  | none =>
    cases hact : sig.action <;>
      simp [process_symbol, backtest_symbol_action, hact] <;>
        split_ifs <;> simp
  | some pos =>
    cases hst : stop_take_reason pos lp <;>
      cases hact : sig.action <;>
        simp [process_symbol, backtest_symbol_action, hst, hact]

/-- C8 (witness): a halted buy decision with no position, positive
allocation and a buy signal executes nothing. -/
theorem C8_witness :
    process_symbol none true ⟨.buy, "entry"⟩ 5 10
        ≠ .open_position "entry" ∧
    process_symbol none true ⟨.buy, "entry"⟩ 5 10 = .no_action := by
  refine ⟨(C8_halt_blocks_only_entries none ⟨.buy, "entry"⟩ 5 10).1 "entry",
    ?_⟩
  simp [process_symbol]

/-- C9: on a window of length ≥ max(ohlcv_limit, 50) whose last RSI and last
rolling-mean volume are defined (the last two MACD-histogram values are
always finite in this model), `generate_signal` returns: with no position,
a buy signal iff last RSI ≤ oversold AND the histogram crosses up
(h₋₂ ≤ 0 < h₋₁) AND the last volume exceeds the rolling-mean volume times
the spike multiplier, else hold "no entry"; with a position, a sell signal
iff last RSI ≥ overbought AND the histogram crosses down (h₋₂ ≥ 0 > h₋₁)
AND the same volume condition, else hold "hold position". -/
theorem C9_generate_signal (cfg : StrategyConfig) (candles : List Candle)
    (r m : ℚ)
    (hlen : max cfg.ohlcv_limit 50 ≤ candles.length)
    (hr : last_rsi cfg candles = FVal.num r)
    (hm : last_vol_ma cfg candles = FVal.num m) :
    ((generate_signal cfg candles none).action = .buy ↔
      (r ≤ cfg.rsi_oversold ∧
       (hist_prev_of cfg candles ≤ 0 ∧ 0 < hist_curr_of cfg candles) ∧
       m * cfg.volume_spike_mult < last_vol candles)) ∧
    (¬(r ≤ cfg.rsi_oversold ∧
       (hist_prev_of cfg candles ≤ 0 ∧ 0 < hist_curr_of cfg candles) ∧
       m * cfg.volume_spike_mult < last_vol candles) →
      generate_signal cfg candles none = ⟨.hold, "no entry"⟩) ∧
    (∀ pos : Position,
      ((generate_signal cfg candles (some pos)).action = .sell ↔
        (cfg.rsi_overbought ≤ r ∧
         (0 ≤ hist_prev_of cfg candles ∧ hist_curr_of cfg candles < 0) ∧
         m * cfg.volume_spike_mult < last_vol candles)) ∧
      (¬(cfg.rsi_overbought ≤ r ∧
         (0 ≤ hist_prev_of cfg candles ∧ hist_curr_of cfg candles < 0) ∧
         m * cfg.volume_spike_mult < last_vol candles) →
        generate_signal cfg candles (some pos)
          = ⟨.hold, "hold position"⟩)) := by
  have hlen2 : ¬ (candles.length < max cfg.ohlcv_limit 50) := not_lt.mpr hlen
  have hbuy : generate_signal cfg candles none =
      if (r ≤ cfg.rsi_oversold ∧
          (hist_prev_of cfg candles ≤ 0 ∧ 0 < hist_curr_of cfg candles) ∧
          m * cfg.volume_spike_mult < last_vol candles) then
        ⟨.buy, "RSI <= oversold, MACD bullish, volume spike"⟩
      else ⟨.hold, "no entry"⟩ := by
    unfold generate_signal
    rw [if_neg hlen2]
    simp only [hr, hm, FVal.isna, Bool.or_self, Bool.false_eq_true,
      if_false, FVal.le, FVal.lt, FVal.mul]
    by_cases h1 : r ≤ cfg.rsi_oversold <;>
      by_cases h2 : hist_prev_of cfg candles ≤ 0 <;>
        by_cases h3 : 0 < hist_curr_of cfg candles <;>
          by_cases h4 : m * cfg.volume_spike_mult < last_vol candles <;>
            simp [h1, h2, h3, h4]
  have hsell : ∀ pos : Position, generate_signal cfg candles (some pos) =
      if (cfg.rsi_overbought ≤ r ∧
          (0 ≤ hist_prev_of cfg candles ∧ hist_curr_of cfg candles < 0) ∧
          m * cfg.volume_spike_mult < last_vol candles) then
        ⟨.sell, "RSI >= overbought, MACD bearish, volume spike"⟩
      else ⟨.hold, "hold position"⟩ := by
    intro pos
    unfold generate_signal
    rw [if_neg hlen2]
    simp only [hr, hm, FVal.isna, Bool.or_self, Bool.false_eq_true,
      if_false, FVal.le, FVal.lt, FVal.mul]
    by_cases h1 : cfg.rsi_overbought ≤ r <;>
      by_cases h2 : 0 ≤ hist_prev_of cfg candles <;>
        by_cases h3 : hist_curr_of cfg candles < 0 <;>
          by_cases h4 : m * cfg.volume_spike_mult < last_vol candles <;>
            simp [h1, h2, h3, h4]
  refine ⟨?_, ?_, ?_⟩
  · rw [hbuy]
    split_ifs with h
    · simpa using h
    · simpa using h
  · intro h
    rw [hbuy, if_neg h]
  · intro pos
    constructor
    · rw [hsell pos]
      split_ifs with h
      · simpa using h
      · simpa using h
    · intro h
      rw [hsell pos, if_neg h]

set_option maxRecDepth 8000 in
/-- C9 (witness): on the concrete 50-candle window the last RSI is 100 and
the last rolling-mean volume is 1; with no position the volume-spike gate
fails (1 is not > 1 · 1) and RSI 100 is not ≤ oversold 30, so the engine
holds with "no entry". -/
theorem C9_witness :
    last_rsi witness_cfg witness_candles = FVal.num 100 ∧
    last_vol_ma witness_cfg witness_candles = FVal.num 1 ∧
    generate_signal witness_cfg witness_candles none
      = ⟨.hold, "no entry"⟩ := by
  have hlen : max witness_cfg.ohlcv_limit 50 ≤ witness_candles.length := by
    norm_num [witness_cfg, witness_candles]
  have hr : last_rsi witness_cfg witness_candles = FVal.num 100 := by
    norm_num [last_rsi, rsi_series, avg_gain, avg_loss, wilder_avg, ewm_rec,
      ewm_go, diffs, mark_ready, witness_cfg, witness_candles,
      FVal.sub, FVal.add, FVal.div, FVal.neg]
  have hm : last_vol_ma witness_cfg witness_candles = FVal.num 1 := by
    norm_num [last_vol_ma, rolling_mean, rolling_from, witness_cfg,
      witness_candles]
  exact ⟨hr, hm,
    (C9_generate_signal witness_cfg witness_candles 100 1 hlen hr hm).2.1
      (fun h => absurd h.1 (by norm_num [witness_cfg]))⟩

/-- C10: for every cash balance, set of open positions and price map, the
portfolio snapshot equals cash plus, for each open position, its amount
times the mapped price when the symbol has a price, and times its entry
price when the symbol is absent from the price map (no candles this tick /
no candle observed yet). -/
theorem C10_portfolio_snapshot (cash : ℚ)
    (positions : List (String × Position)) (prices : List (String × ℚ)) :
    portfolio_snapshot cash positions prices =
      cash + (positions.map (fun sp =>
        match prices.find? (fun pr => pr.1 = sp.1) with
        | some pr => sp.2.amount * pr.2
        | none => sp.2.amount * sp.2.entry_price)).sum := by
  unfold portfolio_snapshot
  rw [foldl_add_map]
  congr 1
  refine congrArg List.sum ?_
  apply List.map_congr_left
  intro sp _
  unfold lookup_price
  cases prices.find? (fun pr => pr.1 = sp.1) <;> simp

end TradingBot
